import Mathlib

/-!
Verification development for the `Curve` adapter of the sisl_toolbox
repository (`src/include/sisl_toolbox/curve.hpp`).

The repository ships only the header of the `Curve` class: the class is a
facade over the external SISL spline library, caching a few derived facts
(`length_`, the two parameter intervals, the start and end points) and
translating an arc-length ("meters") abscissa into the library's native
parametrization before delegating every geometric query.

The implementation file of `Curve` is not part of the sources, so the
operations are modelled from the specification and from the header's own
doc comments.  The external library is modelled abstractly: a `SISLCurve`
carries the native parameter interval, the arc length, a position and a
derivative evaluator, the library's arc-length function and the arc-length
lookup (inverse) that the adapter's conversion performs against it.  The
mathematical guarantees of the external library (the arc-length function is
strictly increasing from `0` to the curve length on the native interval,
and the lookup inverts it) are collected in the predicate
`SISLCurve.WellFormed`.  Scalars are rationals so that every definition is
executable and concrete instances can be checked by `decide`.
-/

namespace SislToolbox

/-- Modelled from the spec: a point in world coordinates (the header uses
`Eigen::Vector3d`, whose implementation is external to the repository).
Components are rationals to keep the model executable. -/
structure Vec3 where
  x : ℚ
  y : ℚ
  z : ℚ
  deriving DecidableEq

/-- Cross product of two vectors, as used by `EvalTangentFrame`. -/
def Vec3.cross (a b : Vec3) : Vec3 :=
  ⟨a.y * b.z - a.z * b.y, a.z * b.x - a.x * b.z, a.x * b.y - a.y * b.x⟩

/-- Negation of a vector (direction reversal of a tangent). -/
def Vec3.neg (a : Vec3) : Vec3 := ⟨-a.x, -a.y, -a.z⟩

/-- The z versor of the world frame, used by `EvalTangentFrame`. -/
def zVersor : Vec3 := ⟨0, 0, 1⟩

/-- Modelled from the spec: the opaque curve object owned by the external
spline library (`struct SISLCurve`, forward-declared in the header).  The
repository never looks inside it; it only queries the library.  The model
records the answers those queries would give: the native parameter
interval (`s1363`), the arc length (`s1240`), position and derivative
evaluation (`s1227`), the arc length accumulated from the native start
parameter up to a native parameter (`arcLen`), and the lookup `invArcLen`
that the adapter's meters-to-native conversion performs against the
library's arc-length function. -/
structure SISLCurve where
  startParam : ℚ
  endParam : ℚ
  len : ℚ
  pos : ℚ → Vec3
  der : ℚ → Vec3
  arcLen : ℚ → ℚ
  invArcLen : ℚ → ℚ

namespace SISLCurve

/-- The external library's contract for a regular curve: the arc-length
function grows strictly from `0` at the native start parameter to the
curve length at the native end parameter, and the arc-length lookup
`invArcLen` inverts it both ways, landing inside the native interval. -/
structure WellFormed (k : SISLCurve) : Prop where
  param_le : k.startParam ≤ k.endParam
  arcLen_start : k.arcLen k.startParam = 0
  arcLen_end : k.arcLen k.endParam = k.len
  arcLen_lt : ∀ s t, k.startParam ≤ s → s < t → t ≤ k.endParam →
    k.arcLen s < k.arcLen t
  inv_left : ∀ s, k.startParam ≤ s → s ≤ k.endParam →
    k.invArcLen (k.arcLen s) = s
  inv_right : ∀ m, 0 ≤ m → m ≤ k.len → k.arcLen (k.invArcLen m) = m
  inv_mem_lb : ∀ m, 0 ≤ m → m ≤ k.len → k.startParam ≤ k.invArcLen m
  inv_mem_ub : ∀ m, 0 ≤ m → m ≤ k.len → k.invArcLen m ≤ k.endParam

/-- Non-strict monotonicity of the arc-length function. -/
theorem arcLen_le {k : SISLCurve} (hk : k.WellFormed) {s t : ℚ}
    (hs : k.startParam ≤ s) (hst : s ≤ t) (ht : t ≤ k.endParam) :
    k.arcLen s ≤ k.arcLen t := by
  rcases lt_or_eq_of_le hst with h | h
  · exact le_of_lt (hk.arcLen_lt s t hs h ht)
  · rw [h]

/-- The arc length accumulated up to a native parameter is nonnegative. -/
theorem arcLen_nonneg {k : SISLCurve} (hk : k.WellFormed) {s : ℚ}
    (hs : k.startParam ≤ s) (hs' : s ≤ k.endParam) : 0 ≤ k.arcLen s := by
  have := arcLen_le hk (le_refl k.startParam) hs hs'
  rw [hk.arcLen_start] at this
  exact this

/-- The arc length accumulated up to a native parameter is at most the
curve length. -/
theorem arcLen_le_len {k : SISLCurve} (hk : k.WellFormed) {s : ℚ}
    (hs : k.startParam ≤ s) (hs' : s ≤ k.endParam) : k.arcLen s ≤ k.len := by
  have := arcLen_le hk hs hs' (le_refl k.endParam)
  rw [hk.arcLen_end] at this
  exact this

/-- The curve length reported by the library is nonnegative. -/
theorem len_nonneg {k : SISLCurve} (hk : k.WellFormed) : 0 ≤ k.len := by
  have := arcLen_le_len hk (le_refl k.startParam) hk.param_le
  rw [hk.arcLen_start] at this
  exact this

/-- The arc-length lookup is strictly increasing on `[0, len]`. -/
theorem inv_lt {k : SISLCurve} (hk : k.WellFormed) {m₁ m₂ : ℚ}
    (h0 : 0 ≤ m₁) (h12 : m₁ < m₂) (hL : m₂ ≤ k.len) :
    k.invArcLen m₁ < k.invArcLen m₂ := by
  have h0' : (0 : ℚ) ≤ m₂ := le_trans h0 (le_of_lt h12)
  have hL' : m₁ ≤ k.len := le_trans (le_of_lt h12) hL
  by_contra hcon
  push_neg at hcon
  rcases lt_or_eq_of_le hcon with h | h
  · have := hk.arcLen_lt _ _ (hk.inv_mem_lb m₂ h0' hL) h (hk.inv_mem_ub m₁ h0 hL')
    rw [hk.inv_right m₁ h0 hL', hk.inv_right m₂ h0' hL] at this
    exact absurd h12 (not_lt_of_lt this)
  · have : m₂ = m₁ := by
      have h1 := hk.inv_right m₁ h0 hL'
      have h2 := hk.inv_right m₂ h0' hL
      rw [← h1, ← h2, h]
    rw [this] at h12
    exact absurd h12 (lt_irrefl m₁)

/-- Modelled from the spec: the external library's curve reversal (the
body of `Curve::Reverse` is not in the sources).  Reversing keeps the
native interval and the length, evaluates position and derivative at the
mirrored parameter (the derivative changes sign), and makes the arc
length accumulate from the other end; the arc-length lookup mirrors
accordingly. -/
def reverse (k : SISLCurve) : SISLCurve where
  startParam := k.startParam
  endParam := k.endParam
  len := k.len
  pos := fun s => k.pos (k.startParam + k.endParam - s)
  der := fun s => (k.der (k.startParam + k.endParam - s)).neg
  arcLen := fun s => k.len - k.arcLen (k.startParam + k.endParam - s)
  invArcLen := fun m => k.startParam + k.endParam - k.invArcLen (k.len - m)

/-- Reversal preserves the external library's contract. -/
theorem reverse_wellFormed {k : SISLCurve} (hk : k.WellFormed) :
    k.reverse.WellFormed := by
  constructor
  · exact hk.param_le
  · show k.len - k.arcLen (k.startParam + k.endParam - k.startParam) = 0
    have h : k.startParam + k.endParam - k.startParam = k.endParam := by ring
    rw [h, hk.arcLen_end, sub_self]
  · show k.len - k.arcLen (k.startParam + k.endParam - k.endParam) = k.len
    have h : k.startParam + k.endParam - k.endParam = k.startParam := by ring
    rw [h, hk.arcLen_start, sub_zero]
  · intro s t hs hst ht
    replace hs : k.startParam ≤ s := hs
    replace ht : t ≤ k.endParam := ht
    have := hk.arcLen_lt (k.startParam + k.endParam - t)
      (k.startParam + k.endParam - s) (by linarith) (by linarith) (by linarith)
    show k.len - k.arcLen _ < k.len - k.arcLen _
    linarith
  · intro s hs hs'
    replace hs : k.startParam ≤ s := hs
    replace hs' : s ≤ k.endParam := hs'
    show k.startParam + k.endParam -
      k.invArcLen (k.len - (k.len - k.arcLen (k.startParam + k.endParam - s))) = s
    have h : k.len - (k.len - k.arcLen (k.startParam + k.endParam - s)) =
        k.arcLen (k.startParam + k.endParam - s) := by ring
    rw [h, hk.inv_left _ (by linarith) (by linarith)]
    ring
  · intro m hm hm'
    replace hm' : m ≤ k.len := hm'
    show k.len - k.arcLen (k.startParam + k.endParam -
      (k.startParam + k.endParam - k.invArcLen (k.len - m))) = m
    have h : k.startParam + k.endParam -
        (k.startParam + k.endParam - k.invArcLen (k.len - m)) =
        k.invArcLen (k.len - m) := by ring
    rw [h, hk.inv_right _ (by linarith) (by linarith)]
    ring
  · intro m hm hm'
    replace hm' : m ≤ k.len := hm'
    have := hk.inv_mem_ub (k.len - m) (by linarith) (by linarith)
    show k.startParam ≤ k.startParam + k.endParam - k.invArcLen (k.len - m)
    linarith
  · intro m hm hm'
    replace hm' : m ≤ k.len := hm'
    have := hk.inv_mem_lb (k.len - m) (by linarith) (by linarith)
    show k.startParam + k.endParam - k.invArcLen (k.len - m) ≤ k.endParam
    linarith

/-- Modelled from the spec: the external library's section extraction used
by `Curve::ExtractSection` (body not in the sources).  `d` and `e` are the
arc lengths, measured from the native start parameter, at which the
section begins and ends.  The adapter looks the two native parameters up
against the library's arc-length function, picks the part of the curve
between them, and the new curve's length and arc-length bookkeeping are
re-derived from the original curve's arc-length function. -/
def sect (k : SISLCurve) (d e : ℚ) : SISLCurve where
  startParam := k.invArcLen d
  endParam := k.invArcLen e
  len := k.arcLen (k.invArcLen e) - k.arcLen (k.invArcLen d)
  pos := k.pos
  der := k.der
  arcLen := fun s => k.arcLen s - k.arcLen (k.invArcLen d)
  invArcLen := fun m => k.invArcLen (m + k.arcLen (k.invArcLen d))

/-- Section extraction on a valid meters subinterval preserves the
external library's contract. -/
theorem sect_wellFormed {k : SISLCurve} (hk : k.WellFormed) {d e : ℚ}
    (hd : 0 ≤ d) (hde : d ≤ e) (he : e ≤ k.len) :
    (k.sect d e).WellFormed := by
  have he0 : (0 : ℚ) ≤ e := le_trans hd hde
  have hd' : d ≤ k.len := le_trans hde he
  have harcd : k.arcLen (k.invArcLen d) = d := hk.inv_right d hd hd'
  have harce : k.arcLen (k.invArcLen e) = e := hk.inv_right e he0 he
  have hdlb := hk.inv_mem_lb d hd hd'
  have hdub := hk.inv_mem_ub d hd hd'
  have helb := hk.inv_mem_lb e he0 he
  have heub := hk.inv_mem_ub e he0 he
  have hinvde : k.invArcLen d ≤ k.invArcLen e := by
    rcases lt_or_eq_of_le hde with h | h
    · exact le_of_lt (inv_lt hk hd h he)
    · rw [h]
  constructor
  · exact hinvde
  · show k.arcLen (k.invArcLen d) - k.arcLen (k.invArcLen d) = 0
    rw [sub_self]
  · rfl
  · intro s t hs hst ht
    have := hk.arcLen_lt s t (le_trans hdlb hs) hst (le_trans ht heub)
    show k.arcLen s - _ < k.arcLen t - _
    linarith
  · intro s hs hs'
    show k.invArcLen (k.arcLen s - k.arcLen (k.invArcLen d) +
      k.arcLen (k.invArcLen d)) = s
    have h : k.arcLen s - k.arcLen (k.invArcLen d) + k.arcLen (k.invArcLen d) =
        k.arcLen s := by ring
    rw [h, hk.inv_left s (le_trans hdlb hs) (le_trans hs' heub)]
  · intro m hm hm'
    replace hm' : m ≤ k.arcLen (k.invArcLen e) - k.arcLen (k.invArcLen d) := hm'
    rw [harcd, harce] at hm'
    show k.arcLen (k.invArcLen (m + k.arcLen (k.invArcLen d))) -
      k.arcLen (k.invArcLen d) = m
    rw [harcd]
    rw [hk.inv_right _ (by linarith) (by linarith)]
    ring
  · intro m hm hm'
    replace hm' : m ≤ k.arcLen (k.invArcLen e) - k.arcLen (k.invArcLen d) := hm'
    rw [harcd, harce] at hm'
    show k.invArcLen d ≤ k.invArcLen (m + k.arcLen (k.invArcLen d))
    rw [harcd]
    rcases lt_or_eq_of_le hm with h | h
    · exact le_of_lt (inv_lt hk hd (by linarith) (by linarith))
    · have h' : m + d = d := by rw [← h]; ring
      rw [h']
  · intro m hm hm'
    replace hm' : m ≤ k.arcLen (k.invArcLen e) - k.arcLen (k.invArcLen d) := hm'
    rw [harcd, harce] at hm'
    show k.invArcLen (m + k.arcLen (k.invArcLen d)) ≤ k.invArcLen e
    rw [harcd]
    rcases lt_or_eq_of_le hm' with h | h
    · exact le_of_lt (inv_lt hk (by linarith) (by linarith) he)
    · have h2 : m + d = e := by rw [h]; ring
      rw [h2]

end SISLCurve

/-- Modelled from the spec: the `Curve` class of `curve.hpp`.  Field names
follow the header (`dimension_`, `order_`, `epsge_`, `statusFlag_`,
`name_`, `curve_`, `length_`, the four cached parameters and the two
cached end points).  `curve_` holds the model of the externally owned
`SISLCurve`. -/
structure Curve where
  dimension_ : Int
  order_ : Int
  epsge_ : ℚ
  statusFlag_ : Int
  name_ : String
  curve_ : SISLCurve
  length_ : ℚ
  startParameter_s_ : ℚ
  endParameter_s_ : ℚ
  startParameter_m_ : ℚ
  endParameter_m_ : ℚ
  startPoint_ : Vec3
  endPoint_ : Vec3

namespace Curve

/-- Getter `Dimension()` of `curve.hpp`. -/
def Dimension (c : Curve) : Int := c.dimension_

/-- Getter `Order()` of `curve.hpp`. -/
def Order (c : Curve) : Int := c.order_

/-- Getter `Epsge()` of `curve.hpp`. -/
def Epsge (c : Curve) : ℚ := c.epsge_

/-- Getter `CurvePtr()` of `curve.hpp`. -/
def CurvePtr (c : Curve) : SISLCurve := c.curve_

/-- Getter `StatusFlag()` of `curve.hpp`. -/
def StatusFlag (c : Curve) : Int := c.statusFlag_

/-- Getter `StartParameter_s()` of `curve.hpp`. -/
def StartParameter_s (c : Curve) : ℚ := c.startParameter_s_

/-- Getter `EndParameter_s()` of `curve.hpp`. -/
def EndParameter_s (c : Curve) : ℚ := c.endParameter_s_

/-- Getter `StartParameter_m()` of `curve.hpp`. -/
def StartParameter_m (c : Curve) : ℚ := c.startParameter_m_

/-- Getter `EndParameter_m()` of `curve.hpp`. -/
def EndParameter_m (c : Curve) : ℚ := c.endParameter_m_

/-- Getter `Length()` of `curve.hpp`. -/
def Length (c : Curve) : ℚ := c.length_

/-- Getter `StartPoint()` of `curve.hpp`. -/
def StartPoint (c : Curve) : Vec3 := c.startPoint_

/-- Getter `EndPoint()` of `curve.hpp`. -/
def EndPoint (c : Curve) : Vec3 := c.endPoint_

/-- Getter `Name()` of `curve.hpp`. -/
def Name (c : Curve) : String := c.name_

/-- Modelled from the spec: the constructor `Curve(SISLCurve*, int, int)`
(body not in the sources).  As the `StraightLine` fragment shipped with
the header shows, construction queries the library for the native
parameter interval (`s1363`) and the curve length (`s1240`) and caches the
end-point positions; the meters parametrization starts at `0` and spans
the arc length, so that the meters abscissa is the physical distance
travelled from the start point. -/
def fromSISL (k : SISLCurve) (dim ord : Int) (eps : ℚ) (nm : String) : Curve where
  dimension_ := dim
  order_ := ord
  epsge_ := eps
  statusFlag_ := 0
  name_ := nm
  curve_ := k
  length_ := k.len
  startParameter_s_ := k.startParam
  endParameter_s_ := k.endParam
  startParameter_m_ := 0
  endParameter_m_ := k.len
  startPoint_ := k.pos k.startParam
  endPoint_ := k.pos k.endParam

/-- The message of the exception documented in `curve.hpp` for the two
conversion routines when the input abscissa is out of range. -/
def outOfRangeMsg : String := "Abscissa out of range"

/-- Modelled from the spec: `Curve::MeterAbsToSislAbs` (body not in the
sources).  Per the header doc comment, an out-of-range meters abscissa
throws an exception (modelled as `Except.error`); otherwise the adapter
looks the native parameter up against the external library's arc-length
function. -/
def MeterAbsToSislAbs (c : Curve) (abscissa_m : ℚ) : Except String ℚ :=
  if abscissa_m < c.startParameter_m_ ∨ c.endParameter_m_ < abscissa_m then
    Except.error outOfRangeMsg
  else
    Except.ok (c.curve_.invArcLen (abscissa_m - c.startParameter_m_))

/-- Modelled from the spec: `Curve::SislAbsToMeterAbs` (body not in the
sources).  Per the header doc comment, an out-of-range native abscissa
throws an exception (modelled as `Except.error`); otherwise the meters
abscissa is the arc length accumulated up to the native parameter, offset
by the start of the meters interval. -/
def SislAbsToMeterAbs (c : Curve) (abscissa_s : ℚ) : Except String ℚ :=
  if abscissa_s < c.startParameter_s_ ∨ c.endParameter_s_ < abscissa_s then
    Except.error outOfRangeMsg
  else
    Except.ok (c.startParameter_m_ + c.curve_.arcLen abscissa_s)

/-- Modelled from the spec: `Curve::FromAbsSislToPos` (body not in the
sources).  A native abscissa is passed straight to the external library's
position evaluation (`s1227`). -/
def FromAbsSislToPos (c : Curve) (abscissa_s : ℚ) : Vec3 :=
  c.curve_.pos abscissa_s

/-- Modelled from the spec: `Curve::FromAbsMetersToPos` (body not in the
sources).  The meters abscissa is first converted to the native
parametrization and the geometric evaluation is then delegated. -/
def FromAbsMetersToPos (c : Curve) (abscissa_m : ℚ) : Except String Vec3 :=
  (c.MeterAbsToSislAbs abscissa_m).map c.FromAbsSislToPos

/-- Modelled from the spec: `Curve::At` (body not in the sources); it
returns the point computed by `FromAbsMetersToPos`. -/
def At (c : Curve) (abscissa_m : ℚ) : Except String Vec3 :=
  c.FromAbsMetersToPos abscissa_m

/-- Modelled from the spec: `Curve::Reverse` (body not in the sources).
The external library reverses the curve in place; the cached end points
swap, the parameter intervals and the length are unchanged. -/
def Reverse (c : Curve) : Curve :=
  { c with
      curve_ := c.curve_.reverse
      startPoint_ := c.endPoint_
      endPoint_ := c.startPoint_ }

/-- Modelled from the spec: `Curve::Sampling` (body not in the sources).
The method is `const` in the header, so the receiver is returned
unchanged next to the points; the points are library position evaluations
at `samples` native parameters spread evenly over the native interval. -/
def Sampling (c : Curve) (samples : ℕ) : Curve × List Vec3 :=
  (c, (List.range samples).map fun i : ℕ =>
    c.FromAbsSislToPos (c.startParameter_s_ +
      (c.endParameter_s_ - c.startParameter_s_) * (i : ℚ) / ((samples : ℚ) - 1)))

/-- Modelled from the spec: `Curve::ExtractSection` (body not in the
sources).  The two meters abscissae are turned into arc lengths from the
start of the curve, the external library picks that part of the curve
(`s1712`), and a new `Curve` is constructed over it; the receiver is
returned unchanged next to the new curve. -/
def ExtractSection (c : Curve) (startValue_m endValue_m : ℚ) : Curve × Curve :=
  (c, fromSISL
    (c.curve_.sect (startValue_m - c.startParameter_m_)
      (endValue_m - c.startParameter_m_))
    c.dimension_ c.order_ c.epsge_ c.name_)

/-- Modelled from the spec: `Curve::EvalTangentFrame` (body not in the
sources).  Per the header doc comment, the tangent is the curve's tangent
direction at the abscissa, the normal is the cross product of the tangent
with the z versor of the world frame, and the binormal is the cross
product of tangent and normal. -/
def EvalTangentFrame (c : Curve) (abscissa_m : ℚ) :
    Except String (Vec3 × Vec3 × Vec3) :=
  (c.MeterAbsToSislAbs abscissa_m).map fun s =>
    let tangent := c.curve_.der s
    let normal := tangent.cross zVersor
    (tangent, normal, tangent.cross normal)

/-- The cached fields are derived facts of the underlying external curve
object: the cached length is the library's arc length, the cached native
interval is the library's parameter interval, the meters interval spans
exactly the length, and the cached end points are the library's positions
at the native interval ends. -/
structure Consistent (c : Curve) : Prop where
  length_eq : c.length_ = c.curve_.len
  start_s : c.startParameter_s_ = c.curve_.startParam
  end_s : c.endParameter_s_ = c.curve_.endParam
  span_m : c.endParameter_m_ - c.startParameter_m_ = c.length_
  start_pt : c.startPoint_ = c.curve_.pos c.curve_.startParam
  end_pt : c.endPoint_ = c.curve_.pos c.curve_.endParam

/-- Construction from an external curve establishes the cached-field
invariant. -/
theorem fromSISL_consistent (k : SISLCurve) (dim ord : Int) (eps : ℚ)
    (nm : String) : (fromSISL k dim ord eps nm).Consistent := by
  constructor
  · rfl
  · rfl
  · rfl
  · show k.len - 0 = k.len
    rw [sub_zero]
  · rfl
  · rfl

/-- Reversal preserves the cached-field invariant. -/
theorem reverse_consistent {c : Curve} (hc : c.Consistent) :
    c.Reverse.Consistent := by
  constructor
  · exact hc.length_eq
  · exact hc.start_s
  · exact hc.end_s
  · exact hc.span_m
  · show c.endPoint_ = c.curve_.pos (c.curve_.startParam + c.curve_.endParam -
      c.curve_.startParam)
    have h : c.curve_.startParam + c.curve_.endParam - c.curve_.startParam =
        c.curve_.endParam := by ring
    rw [h]
    exact hc.end_pt
  · show c.startPoint_ = c.curve_.pos (c.curve_.startParam + c.curve_.endParam -
      c.curve_.endParam)
    have h : c.curve_.startParam + c.curve_.endParam - c.curve_.endParam =
        c.curve_.startParam := by ring
    rw [h]
    exact hc.start_pt

/-- The meters-to-native conversion succeeds on an in-range abscissa and
returns the arc-length lookup of the distance from the meters start. -/
theorem meterAbsToSislAbs_ok {c : Curve} {m : ℚ}
    (h1 : c.startParameter_m_ ≤ m) (h2 : m ≤ c.endParameter_m_) :
    c.MeterAbsToSislAbs m =
      Except.ok (c.curve_.invArcLen (m - c.startParameter_m_)) := by
  unfold MeterAbsToSislAbs
  rw [if_neg]
  simp only [not_or, not_lt]
  exact ⟨h1, h2⟩

/-- The native-to-meters conversion succeeds on an in-range abscissa and
returns the accumulated arc length offset by the meters start. -/
theorem sislAbsToMeterAbs_ok {c : Curve} {s : ℚ}
    (h1 : c.startParameter_s_ ≤ s) (h2 : s ≤ c.endParameter_s_) :
    c.SislAbsToMeterAbs s =
      Except.ok (c.startParameter_m_ + c.curve_.arcLen s) := by
  unfold SislAbsToMeterAbs
  rw [if_neg]
  simp only [not_or, not_lt]
  exact ⟨h1, h2⟩

end Curve

/-- A concrete external curve for checking the development on an input: a
straight segment of length `2`, traversed at unit speed on the native
interval `[0, 2]` along the x axis. -/
def lineSISL : SISLCurve where
  startParam := 0
  endParam := 2
  len := 2
  pos := fun s => ⟨s, 0, 0⟩
  der := fun _ => ⟨1, 0, 0⟩
  arcLen := fun s => s
  invArcLen := fun m => m

/-- The concrete segment satisfies the external library's contract. -/
theorem lineSISL_wellFormed : lineSISL.WellFormed := by
  constructor
  · show (0 : ℚ) ≤ 2
    norm_num
  · rfl
  · rfl
  · intro s t _ h _
    exact h
  · intro s _ _
    rfl
  · intro m _ _
    rfl
  · intro m h _
    exact h
  · intro m _ h
    exact h

/-- The adapter built over the concrete segment. -/
def lineCurve : Curve := Curve.fromSISL lineSISL 3 3 (1 / 1000000) "line"

/-- The concrete adapter satisfies the cached-field invariant. -/
theorem lineCurve_consistent : lineCurve.Consistent :=
  Curve.fromSISL_consistent lineSISL 3 3 (1 / 1000000) "line"


/-- Claim C1, counterexample: on the unit-speed segment of length 2, the
meters abscissa 5 is outside the parametrization range and
`MeterAbsToSislAbs` signals the exception documented in the header, not a
status code: the claim that no operation throws an exception is false. -/
theorem meterAbsToSislAbs_throws_on_out_of_range :
    lineCurve.MeterAbsToSislAbs 5 = Except.error Curve.outOfRangeMsg := rfl

/-- Claim C1, amended: every operation signals errors only through the
external library's status code stored in `statusFlag_`, except the two
conversion routines `MeterAbsToSislAbs` and `SislAbsToMeterAbs`, which
throw an exception exactly when the input abscissa is outside the
corresponding parametrization interval, and succeed otherwise. -/
theorem conversions_throw_iff_out_of_range (c : Curve) (m s : ℚ) :
    ((∃ x, c.MeterAbsToSislAbs m = Except.ok x) ↔
      c.StartParameter_m ≤ m ∧ m ≤ c.EndParameter_m) ∧
    (c.MeterAbsToSislAbs m = Except.error Curve.outOfRangeMsg ↔
      ¬(c.StartParameter_m ≤ m ∧ m ≤ c.EndParameter_m)) ∧
    ((∃ y, c.SislAbsToMeterAbs s = Except.ok y) ↔
      c.StartParameter_s ≤ s ∧ s ≤ c.EndParameter_s) ∧
    (c.SislAbsToMeterAbs s = Except.error Curve.outOfRangeMsg ↔
      ¬(c.StartParameter_s ≤ s ∧ s ≤ c.EndParameter_s)) := by
  unfold Curve.MeterAbsToSislAbs Curve.SislAbsToMeterAbs Curve.StartParameter_m
    Curve.EndParameter_m Curve.StartParameter_s Curve.EndParameter_s
  refine ⟨?_, ?_, ?_, ?_⟩ <;> split <;> rename_i h
  · constructor
    · rintro ⟨x, hx⟩
      cases hx
    · rintro ⟨h1, h2⟩
      rcases h with h3 | h3 <;> linarith
  · push_neg at h
    exact ⟨fun _ => h, fun _ => ⟨_, rfl⟩⟩
  · constructor
    · intro _
      rintro ⟨h1, h2⟩
      rcases h with h3 | h3 <;> linarith
    · intro _
      rfl
  · push_neg at h
    constructor
    · intro hx
      cases hx
    · intro hn
      exact absurd h hn
  · constructor
    · rintro ⟨y, hy⟩
      cases hy
    · rintro ⟨h1, h2⟩
      rcases h with h3 | h3 <;> linarith
  · push_neg at h
    exact ⟨fun _ => h, fun _ => ⟨_, rfl⟩⟩
  · constructor
    · intro _
      rintro ⟨h1, h2⟩
      rcases h with h3 | h3 <;> linarith
    · intro _
      rfl
  · push_neg at h
    constructor
    · intro hy
      cases hy
    · intro hn
      exact absurd h hn

/-- Claim C2: on their respective parametrization intervals the two
conversion routines are mutually inverse (hence bijections between the
meters interval and the native interval). -/
theorem conversions_mutually_inverse (c : Curve) (hc : c.Consistent)
    (hw : c.CurvePtr.WellFormed) (m s : ℚ) :
    (c.StartParameter_m ≤ m → m ≤ c.EndParameter_m →
      (c.MeterAbsToSislAbs m).bind c.SislAbsToMeterAbs = Except.ok m) ∧
    (c.StartParameter_s ≤ s → s ≤ c.EndParameter_s →
      (c.SislAbsToMeterAbs s).bind c.MeterAbsToSislAbs = Except.ok s) := by
  have hw' : c.curve_.WellFormed := hw
  have hspan := hc.span_m
  have hlen := hc.length_eq
  constructor
  · intro h1 h2
    replace h1 : c.startParameter_m_ ≤ m := h1
    replace h2 : m ≤ c.endParameter_m_ := h2
    have hd0 : 0 ≤ m - c.startParameter_m_ := by linarith
    have hdL : m - c.startParameter_m_ ≤ c.curve_.len := by linarith
    have hmem1 : c.startParameter_s_ ≤ c.curve_.invArcLen (m - c.startParameter_m_) := by
      rw [hc.start_s]
      exact hw'.inv_mem_lb _ hd0 hdL
    have hmem2 : c.curve_.invArcLen (m - c.startParameter_m_) ≤ c.endParameter_s_ := by
      rw [hc.end_s]
      exact hw'.inv_mem_ub _ hd0 hdL
    rw [Curve.meterAbsToSislAbs_ok h1 h2]
    show c.SislAbsToMeterAbs (c.curve_.invArcLen (m - c.startParameter_m_)) =
      Except.ok m
    rw [Curve.sislAbsToMeterAbs_ok hmem1 hmem2, hw'.inv_right _ hd0 hdL]
    congr 1
    ring
  · intro h1 h2
    replace h1 : c.startParameter_s_ ≤ s := h1
    replace h2 : s ≤ c.endParameter_s_ := h2
    have hs1 : c.curve_.startParam ≤ s := by
      rw [← hc.start_s]
      exact h1
    have hs2 : s ≤ c.curve_.endParam := by
      rw [← hc.end_s]
      exact h2
    have ha0 : 0 ≤ c.curve_.arcLen s := SISLCurve.arcLen_nonneg hw' hs1 hs2
    have haL : c.curve_.arcLen s ≤ c.curve_.len := SISLCurve.arcLen_le_len hw' hs1 hs2
    rw [Curve.sislAbsToMeterAbs_ok h1 h2]
    show c.MeterAbsToSislAbs (c.startParameter_m_ + c.curve_.arcLen s) = Except.ok s
    have hm1 : c.startParameter_m_ ≤ c.startParameter_m_ + c.curve_.arcLen s := by
      linarith
    have hm2 : c.startParameter_m_ + c.curve_.arcLen s ≤ c.endParameter_m_ := by
      linarith
    rw [Curve.meterAbsToSislAbs_ok hm1 hm2]
    have h3 : c.startParameter_m_ + c.curve_.arcLen s - c.startParameter_m_ =
        c.curve_.arcLen s := by ring
    rw [h3, hw'.inv_left s hs1 hs2]

/-- Claim C2, witness: both round trips checked on the unit-speed segment
at meters abscissa 1 and native abscissa 2. -/
theorem conversions_mutually_inverse_witness :
    (lineCurve.MeterAbsToSislAbs 1).bind lineCurve.SislAbsToMeterAbs = Except.ok 1 ∧
    (lineCurve.SislAbsToMeterAbs 2).bind lineCurve.MeterAbsToSislAbs = Except.ok 2 :=
  ⟨(conversions_mutually_inverse lineCurve lineCurve_consistent lineSISL_wellFormed
      1 2).1 (by decide) (by decide),
   (conversions_mutually_inverse lineCurve lineCurve_consistent lineSISL_wellFormed
      1 2).2 (by decide) (by decide)⟩


/-- Claim C3: the meters parameter measures physical distance travelled
along the curve with unit factor: the native parameter underlying
`At abscissa_m` accumulates exactly `abscissa_m - StartParameter_m()` of
arc length, and the ends of the meters interval map to the cached start
and end points. -/
theorem at_measures_arc_length (c : Curve) (hc : c.Consistent)
    (hw : c.CurvePtr.WellFormed) (m : ℚ)
    (h1 : c.StartParameter_m ≤ m) (h2 : m ≤ c.EndParameter_m) :
    (∃ s, c.MeterAbsToSislAbs m = Except.ok s ∧
      c.At m = Except.ok (c.CurvePtr.pos s) ∧
      c.CurvePtr.arcLen s = m - c.StartParameter_m) ∧
    c.At c.StartParameter_m = Except.ok c.StartPoint ∧
    c.At c.EndParameter_m = Except.ok c.EndPoint := by
  have hw' : c.curve_.WellFormed := hw
  have hspan := hc.span_m
  have hlen := hc.length_eq
  replace h1 : c.startParameter_m_ ≤ m := h1
  replace h2 : m ≤ c.endParameter_m_ := h2
  refine ⟨⟨c.curve_.invArcLen (m - c.startParameter_m_),
    Curve.meterAbsToSislAbs_ok h1 h2, ?_, ?_⟩, ?_, ?_⟩
  · show c.FromAbsMetersToPos m = _
    unfold Curve.FromAbsMetersToPos
    rw [Curve.meterAbsToSislAbs_ok h1 h2]
    rfl
  · exact hw'.inv_right _ (by linarith) (by linarith)
  · show c.FromAbsMetersToPos c.startParameter_m_ = Except.ok c.startPoint_
    unfold Curve.FromAbsMetersToPos
    rw [Curve.meterAbsToSislAbs_ok (le_refl _) (by linarith)]
    show Except.ok (c.curve_.pos
      (c.curve_.invArcLen (c.startParameter_m_ - c.startParameter_m_))) = _
    have h3 : c.startParameter_m_ - c.startParameter_m_ = 0 := by ring
    rw [h3, show (0 : ℚ) = c.curve_.arcLen c.curve_.startParam from
      hw'.arcLen_start.symm]
    rw [hw'.inv_left _ (le_refl _) hw'.param_le, hc.start_pt]
  · show c.FromAbsMetersToPos c.endParameter_m_ = Except.ok c.endPoint_
    unfold Curve.FromAbsMetersToPos
    rw [Curve.meterAbsToSislAbs_ok (by linarith) (le_refl _)]
    show Except.ok (c.curve_.pos
      (c.curve_.invArcLen (c.endParameter_m_ - c.startParameter_m_))) = _
    have h3 : c.endParameter_m_ - c.startParameter_m_ = c.curve_.len := by linarith
    rw [h3, ← hw'.arcLen_end, hw'.inv_left _ hw'.param_le (le_refl _), hc.end_pt]

/-- Claim C3, witness: checked on the unit-speed segment at meters
abscissa 1. -/
theorem at_measures_arc_length_witness :
    (∃ s, lineCurve.MeterAbsToSislAbs 1 = Except.ok s ∧
      lineCurve.At 1 = Except.ok (lineCurve.CurvePtr.pos s) ∧
      lineCurve.CurvePtr.arcLen s = 1 - lineCurve.StartParameter_m) ∧
    lineCurve.At lineCurve.StartParameter_m = Except.ok lineCurve.StartPoint ∧
    lineCurve.At lineCurve.EndParameter_m = Except.ok lineCurve.EndPoint :=
  at_measures_arc_length lineCurve lineCurve_consistent lineSISL_wellFormed 1
    (by decide) (by decide)

/-- Claim C4: `At` returns exactly the position computed by
`FromAbsMetersToPos`, which delegates by converting the meters abscissa
to the native parametrization and evaluating `FromAbsSislToPos` there. -/
theorem at_delegates_to_native_evaluation (c : Curve) (m : ℚ)
    (h1 : c.StartParameter_m ≤ m) (h2 : m ≤ c.EndParameter_m) :
    c.At m = c.FromAbsMetersToPos m ∧
    (∃ s, c.MeterAbsToSislAbs m = Except.ok s ∧
      c.FromAbsMetersToPos m = Except.ok (c.FromAbsSislToPos s)) := by
  replace h1 : c.startParameter_m_ ≤ m := h1
  replace h2 : m ≤ c.endParameter_m_ := h2
  refine ⟨rfl, ⟨c.curve_.invArcLen (m - c.startParameter_m_),
    Curve.meterAbsToSislAbs_ok h1 h2, ?_⟩⟩
  unfold Curve.FromAbsMetersToPos
  rw [Curve.meterAbsToSislAbs_ok h1 h2]
  rfl

/-- Claim C4, witness: checked on the unit-speed segment at meters
abscissa 1. -/
theorem at_delegates_to_native_evaluation_witness :
    lineCurve.At 1 = lineCurve.FromAbsMetersToPos 1 ∧
    (∃ s, lineCurve.MeterAbsToSislAbs 1 = Except.ok s ∧
      lineCurve.FromAbsMetersToPos 1 = Except.ok (lineCurve.FromAbsSislToPos s)) :=
  at_delegates_to_native_evaluation lineCurve 1 (by decide) (by decide)


/-- Evaluating `At` on a freshly constructed curve delegates to the
external curve's position at the looked-up native parameter. -/
theorem fromSISL_at (k : SISLCurve) (dim ord : Int) (eps : ℚ) (nm : String)
    (t : ℚ) (h1 : 0 ≤ t) (h2 : t ≤ k.len) :
    (Curve.fromSISL k dim ord eps nm).At t =
      Except.ok (k.pos (k.invArcLen t)) := by
  show (Curve.fromSISL k dim ord eps nm).FromAbsMetersToPos t = _
  unfold Curve.FromAbsMetersToPos
  rw [Curve.meterAbsToSislAbs_ok
    (show (Curve.fromSISL k dim ord eps nm).startParameter_m_ ≤ t from h1)
    (show t ≤ (Curve.fromSISL k dim ord eps nm).endParameter_m_ from h2)]
  show Except.ok (k.pos (k.invArcLen (t - 0))) = _
  rw [show t - (0 : ℚ) = t from by ring]

/-- Claim C5: after construction, after `Reverse()`, and on every curve
returned by `ExtractSection`, the cached fields remain derived facts of
the underlying external curve: the cached length is the curve's arc
length, the cached native interval is the curve's parameter interval, the
meters interval spans the length, and the cached end points are the
curve's positions at the interval ends. -/
theorem cached_fields_remain_derived (k : SISLCurve) (dim ord : Int) (eps : ℚ)
    (nm : String) (c : Curve) (hk : k.WellFormed) (hc : c.Consistent)
    (hw : c.CurvePtr.WellFormed) (sv ev : ℚ)
    (h1 : c.StartParameter_m ≤ sv) (h2 : sv ≤ ev) (h3 : ev ≤ c.EndParameter_m) :
    ((Curve.fromSISL k dim ord eps nm).Consistent ∧
      (Curve.fromSISL k dim ord eps nm).Length = k.arcLen k.endParam) ∧
    (c.Reverse.Consistent ∧ c.Reverse.CurvePtr.WellFormed ∧
      c.Reverse.Length = c.Length ∧
      c.Reverse.EndParameter_m - c.Reverse.StartParameter_m = c.Reverse.Length) ∧
    ((c.ExtractSection sv ev).2.Consistent ∧
      (c.ExtractSection sv ev).2.CurvePtr.WellFormed) := by
  have hw' : c.curve_.WellFormed := hw
  have hspan := hc.span_m
  have hlen := hc.length_eq
  replace h1 : c.startParameter_m_ ≤ sv := h1
  replace h3 : ev ≤ c.endParameter_m_ := h3
  refine ⟨⟨Curve.fromSISL_consistent k dim ord eps nm, ?_⟩,
    ⟨Curve.reverse_consistent hc, SISLCurve.reverse_wellFormed hw', rfl, ?_⟩,
    ⟨Curve.fromSISL_consistent _ _ _ _ _, ?_⟩⟩
  · exact hk.arcLen_end.symm
  · exact (Curve.reverse_consistent hc).span_m
  · exact SISLCurve.sect_wellFormed hw' (by linarith) (by linarith) (by linarith)

/-- Claim C5, witness: checked for construction over the unit-speed
segment, for its reversal, and for the section `[0, 1]`. -/
theorem cached_fields_remain_derived_witness :
    ((Curve.fromSISL lineSISL 3 3 1 "w").Consistent ∧
      (Curve.fromSISL lineSISL 3 3 1 "w").Length =
        lineSISL.arcLen lineSISL.endParam) ∧
    (lineCurve.Reverse.Consistent ∧ lineCurve.Reverse.CurvePtr.WellFormed ∧
      lineCurve.Reverse.Length = lineCurve.Length ∧
      lineCurve.Reverse.EndParameter_m - lineCurve.Reverse.StartParameter_m =
        lineCurve.Reverse.Length) ∧
    ((lineCurve.ExtractSection 0 1).2.Consistent ∧
      (lineCurve.ExtractSection 0 1).2.CurvePtr.WellFormed) :=
  cached_fields_remain_derived lineSISL 3 3 1 "w" lineCurve lineSISL_wellFormed
    lineCurve_consistent lineSISL_wellFormed 0 1 (by decide) (by decide) (by decide)

/-- Claim C6: `ExtractSection` leaves the receiver untouched and returns a
new curve of length `endValue_m - startValue_m` whose point at meters
abscissa `t` is the original curve's point at `startValue_m + t`. -/
theorem extractSection_picks_subcurve (c : Curve) (hc : c.Consistent)
    (hw : c.CurvePtr.WellFormed) (sv ev : ℚ)
    (h1 : c.StartParameter_m ≤ sv) (h2 : sv ≤ ev) (h3 : ev ≤ c.EndParameter_m) :
    (c.ExtractSection sv ev).1 = c ∧
    (c.ExtractSection sv ev).2.Length = ev - sv ∧
    ∀ t, 0 ≤ t → t ≤ ev - sv →
      (c.ExtractSection sv ev).2.At t = c.At (sv + t) := by
  have hw' : c.curve_.WellFormed := hw
  have hspan := hc.span_m
  have hlen := hc.length_eq
  replace h1 : c.startParameter_m_ ≤ sv := h1
  replace h3 : ev ≤ c.endParameter_m_ := h3
  have hd0 : 0 ≤ sv - c.startParameter_m_ := by linarith
  have hde : sv - c.startParameter_m_ ≤ ev - c.startParameter_m_ := by linarith
  have heL : ev - c.startParameter_m_ ≤ c.curve_.len := by linarith
  have harcd := hw'.inv_right _ hd0 (le_trans hde heL)
  have harce := hw'.inv_right _ (le_trans hd0 hde) heL
  have hsecL : (c.curve_.sect (sv - c.startParameter_m_)
      (ev - c.startParameter_m_)).len = ev - sv := by
    show c.curve_.arcLen (c.curve_.invArcLen (ev - c.startParameter_m_)) -
      c.curve_.arcLen (c.curve_.invArcLen (sv - c.startParameter_m_)) = ev - sv
    rw [harcd, harce]
    ring
  refine ⟨rfl, hsecL, ?_⟩
  intro t ht0 ht1
  have ht2 : t ≤ (c.curve_.sect (sv - c.startParameter_m_)
      (ev - c.startParameter_m_)).len := by
    rw [hsecL]
    exact ht1
  have hlhs := fromSISL_at (c.curve_.sect (sv - c.startParameter_m_)
    (ev - c.startParameter_m_)) c.dimension_ c.order_ c.epsge_ c.name_ t ht0 ht2
  have hrhs : c.At (sv + t) = Except.ok
      (c.curve_.pos (c.curve_.invArcLen (sv + t - c.startParameter_m_))) := by
    show c.FromAbsMetersToPos (sv + t) = _
    unfold Curve.FromAbsMetersToPos
    rw [Curve.meterAbsToSislAbs_ok (by linarith) (by linarith)]
    rfl
  show (Curve.fromSISL (c.curve_.sect (sv - c.startParameter_m_)
    (ev - c.startParameter_m_)) c.dimension_ c.order_ c.epsge_ c.name_).At t =
    c.At (sv + t)
  rw [hlhs, hrhs]
  show Except.ok (c.curve_.pos (c.curve_.invArcLen
    (t + c.curve_.arcLen (c.curve_.invArcLen (sv - c.startParameter_m_))))) = _
  rw [harcd, show t + (sv - c.startParameter_m_) = sv + t - c.startParameter_m_
    from by ring]

/-- Claim C6, witness: the section `[0, 1]` of the unit-speed segment,
checked at section abscissa 1. -/
theorem extractSection_picks_subcurve_witness :
    (lineCurve.ExtractSection 0 1).1 = lineCurve ∧
    (lineCurve.ExtractSection 0 1).2.Length = 1 - 0 ∧
    ∀ t, 0 ≤ t → t ≤ 1 - 0 →
      (lineCurve.ExtractSection 0 1).2.At t = lineCurve.At (0 + t) :=
  extractSection_picks_subcurve lineCurve lineCurve_consistent lineSISL_wellFormed
    0 1 (by decide) (by decide) (by decide)


/-- Claim C7: `MeterAbsToSislAbs` is strictly increasing on the meters
interval and maps its ends to the native interval's ends; symmetrically,
`SislAbsToMeterAbs` is strictly increasing on the native interval and
maps its ends to the meters interval's ends. -/
theorem conversions_strictly_increasing (c : Curve) (hc : c.Consistent)
    (hw : c.CurvePtr.WellFormed) :
    (∀ m₁ m₂, c.StartParameter_m ≤ m₁ → m₁ < m₂ → m₂ ≤ c.EndParameter_m →
      ∃ s₁ s₂, c.MeterAbsToSislAbs m₁ = Except.ok s₁ ∧
        c.MeterAbsToSislAbs m₂ = Except.ok s₂ ∧ s₁ < s₂) ∧
    c.MeterAbsToSislAbs c.StartParameter_m = Except.ok c.StartParameter_s ∧
    c.MeterAbsToSislAbs c.EndParameter_m = Except.ok c.EndParameter_s ∧
    (∀ s₁ s₂, c.StartParameter_s ≤ s₁ → s₁ < s₂ → s₂ ≤ c.EndParameter_s →
      ∃ m₁ m₂, c.SislAbsToMeterAbs s₁ = Except.ok m₁ ∧
        c.SislAbsToMeterAbs s₂ = Except.ok m₂ ∧ m₁ < m₂) ∧
    c.SislAbsToMeterAbs c.StartParameter_s = Except.ok c.StartParameter_m ∧
    c.SislAbsToMeterAbs c.EndParameter_s = Except.ok c.EndParameter_m := by
  have hw' : c.curve_.WellFormed := hw
  have hspan := hc.span_m
  have hlen := hc.length_eq
  have hL0 : 0 ≤ c.curve_.len := SISLCurve.len_nonneg hw'
  refine ⟨?_, ?_, ?_, ?_, ?_, ?_⟩
  · intro m₁ m₂ h1 h12 h2
    replace h1 : c.startParameter_m_ ≤ m₁ := h1
    replace h2 : m₂ ≤ c.endParameter_m_ := h2
    refine ⟨c.curve_.invArcLen (m₁ - c.startParameter_m_),
      c.curve_.invArcLen (m₂ - c.startParameter_m_),
      Curve.meterAbsToSislAbs_ok h1 (by linarith),
      Curve.meterAbsToSislAbs_ok (by linarith) h2, ?_⟩
    exact SISLCurve.inv_lt hw' (by linarith) (by linarith) (by linarith)
  · rw [Curve.meterAbsToSislAbs_ok (le_refl c.StartParameter_m)
      (show c.StartParameter_m ≤ c.endParameter_m_ from by
        show c.startParameter_m_ ≤ c.endParameter_m_
        linarith)]
    show Except.ok (c.curve_.invArcLen
      (c.startParameter_m_ - c.startParameter_m_)) = _
    rw [show c.startParameter_m_ - c.startParameter_m_ = (0 : ℚ) from by ring,
      ← hw'.arcLen_start, hw'.inv_left _ (le_refl _) hw'.param_le]
    exact congrArg Except.ok hc.start_s.symm
  · rw [Curve.meterAbsToSislAbs_ok
      (show c.startParameter_m_ ≤ c.EndParameter_m from by
        show c.startParameter_m_ ≤ c.endParameter_m_
        linarith)
      (le_refl c.EndParameter_m)]
    show Except.ok (c.curve_.invArcLen
      (c.endParameter_m_ - c.startParameter_m_)) = _
    rw [show c.endParameter_m_ - c.startParameter_m_ = c.curve_.len from by
        linarith,
      ← hw'.arcLen_end, hw'.inv_left _ hw'.param_le (le_refl _)]
    exact congrArg Except.ok hc.end_s.symm
  · intro s₁ s₂ h1 h12 h2
    replace h1 : c.startParameter_s_ ≤ s₁ := h1
    replace h2 : s₂ ≤ c.endParameter_s_ := h2
    have hs1 : c.curve_.startParam ≤ s₁ := by
      rw [← hc.start_s]
      exact h1
    have hs2 : s₂ ≤ c.curve_.endParam := by
      rw [← hc.end_s]
      exact h2
    refine ⟨c.startParameter_m_ + c.curve_.arcLen s₁,
      c.startParameter_m_ + c.curve_.arcLen s₂,
      Curve.sislAbsToMeterAbs_ok h1 (by linarith),
      Curve.sislAbsToMeterAbs_ok (by linarith) h2, ?_⟩
    have := hw'.arcLen_lt s₁ s₂ hs1 h12 hs2
    linarith
  · have hse : c.startParameter_s_ ≤ c.endParameter_s_ := by
      rw [hc.start_s, hc.end_s]
      exact hw'.param_le
    rw [Curve.sislAbsToMeterAbs_ok (le_refl c.StartParameter_s)
      (show c.StartParameter_s ≤ c.endParameter_s_ from hse)]
    rw [show c.StartParameter_s = c.curve_.startParam from hc.start_s,
      hw'.arcLen_start]
    show Except.ok (c.startParameter_m_ + 0) = Except.ok c.startParameter_m_
    rw [add_zero]
  · have hse : c.startParameter_s_ ≤ c.endParameter_s_ := by
      rw [hc.start_s, hc.end_s]
      exact hw'.param_le
    rw [Curve.sislAbsToMeterAbs_ok
      (show c.startParameter_s_ ≤ c.EndParameter_s from hse)
      (le_refl c.EndParameter_s)]
    rw [show c.EndParameter_s = c.curve_.endParam from hc.end_s, hw'.arcLen_end]
    show Except.ok (c.startParameter_m_ + c.curve_.len) =
      Except.ok c.endParameter_m_
    congr 1
    linarith

/-- Claim C7, witness: checked on the unit-speed segment at the meters
pair (0, 1) and the native pair (1, 2). -/
theorem conversions_strictly_increasing_witness :
    (∃ s₁ s₂, lineCurve.MeterAbsToSislAbs 0 = Except.ok s₁ ∧
      lineCurve.MeterAbsToSislAbs 1 = Except.ok s₂ ∧ s₁ < s₂) ∧
    lineCurve.MeterAbsToSislAbs lineCurve.StartParameter_m =
      Except.ok lineCurve.StartParameter_s ∧
    (∃ m₁ m₂, lineCurve.SislAbsToMeterAbs 1 = Except.ok m₁ ∧
      lineCurve.SislAbsToMeterAbs 2 = Except.ok m₂ ∧ m₁ < m₂) ∧
    lineCurve.SislAbsToMeterAbs lineCurve.EndParameter_s =
      Except.ok lineCurve.EndParameter_m :=
  ⟨(conversions_strictly_increasing lineCurve lineCurve_consistent
      lineSISL_wellFormed).1 0 1 (by decide) (by decide) (by decide),
   (conversions_strictly_increasing lineCurve lineCurve_consistent
      lineSISL_wellFormed).2.1,
   (conversions_strictly_increasing lineCurve lineCurve_consistent
      lineSISL_wellFormed).2.2.2.1 1 2 (by decide) (by decide) (by decide),
   (conversions_strictly_increasing lineCurve lineCurve_consistent
      lineSISL_wellFormed).2.2.2.2.2⟩


/-- Claim C8: `Reverse()` turns the direction of the curve while keeping
its meters interval: the point at meters abscissa `m` after reversal is
the point the original curve had at the mirrored abscissa
`StartParameter_m() + EndParameter_m() - m`, and reversing twice restores
the original point mapping. -/
theorem reverse_mirrors_at (c : Curve) (hc : c.Consistent)
    (hw : c.CurvePtr.WellFormed) (m : ℚ)
    (h1 : c.StartParameter_m ≤ m) (h2 : m ≤ c.EndParameter_m) :
    c.Reverse.At m = c.At (c.StartParameter_m + c.EndParameter_m - m) ∧
    ∀ x, c.Reverse.Reverse.At x = c.At x := by
  have hw' : c.curve_.WellFormed := hw
  have hspan := hc.span_m
  have hlen := hc.length_eq
  replace h1 : c.startParameter_m_ ≤ m := h1
  replace h2 : m ≤ c.endParameter_m_ := h2
  constructor
  · have hlhs : c.Reverse.At m = Except.ok (c.curve_.pos
        (c.curve_.invArcLen (c.curve_.len - (m - c.startParameter_m_)))) := by
      show c.Reverse.FromAbsMetersToPos m = _
      unfold Curve.FromAbsMetersToPos
      rw [Curve.meterAbsToSislAbs_ok
        (show c.Reverse.startParameter_m_ ≤ m from h1)
        (show m ≤ c.Reverse.endParameter_m_ from h2)]
      show Except.ok (c.curve_.pos (c.curve_.startParam + c.curve_.endParam -
        (c.curve_.startParam + c.curve_.endParam -
          c.curve_.invArcLen (c.curve_.len - (m - c.startParameter_m_))))) = _
      rw [show ∀ z : ℚ, c.curve_.startParam + c.curve_.endParam -
        (c.curve_.startParam + c.curve_.endParam - z) = z from fun z => by ring]
    have hrhs : c.At (c.startParameter_m_ + c.endParameter_m_ - m) = Except.ok
        (c.curve_.pos (c.curve_.invArcLen (c.endParameter_m_ - m))) := by
      show c.FromAbsMetersToPos _ = _
      unfold Curve.FromAbsMetersToPos
      rw [Curve.meterAbsToSislAbs_ok (by linarith) (by linarith)]
      show Except.ok (c.curve_.pos (c.curve_.invArcLen
        (c.startParameter_m_ + c.endParameter_m_ - m - c.startParameter_m_))) = _
      rw [show c.startParameter_m_ + c.endParameter_m_ - m - c.startParameter_m_ =
        c.endParameter_m_ - m from by ring]
    show c.Reverse.At m = c.At (c.startParameter_m_ + c.endParameter_m_ - m)
    rw [hlhs, hrhs, show c.curve_.len - (m - c.startParameter_m_) =
      c.endParameter_m_ - m from by linarith]
  · intro x
    by_cases hg : x < c.startParameter_m_ ∨ c.endParameter_m_ < x
    · show c.Reverse.Reverse.FromAbsMetersToPos x = c.FromAbsMetersToPos x
      unfold Curve.FromAbsMetersToPos Curve.MeterAbsToSislAbs
      rw [if_pos (show x < c.Reverse.Reverse.startParameter_m_ ∨
        c.Reverse.Reverse.endParameter_m_ < x from hg), if_pos hg]
      rfl
    · push_neg at hg
      obtain ⟨h1x, h2x⟩ := hg
      have hlhs2 : c.Reverse.Reverse.At x = Except.ok
          (c.curve_.reverse.reverse.pos (c.curve_.reverse.reverse.invArcLen
            (x - c.startParameter_m_))) := by
        show c.Reverse.Reverse.FromAbsMetersToPos x = _
        unfold Curve.FromAbsMetersToPos
        rw [Curve.meterAbsToSislAbs_ok
          (show c.Reverse.Reverse.startParameter_m_ ≤ x from h1x)
          (show x ≤ c.Reverse.Reverse.endParameter_m_ from h2x)]
        rfl
      have hrhs2 : c.At x = Except.ok
          (c.curve_.pos (c.curve_.invArcLen (x - c.startParameter_m_))) := by
        show c.FromAbsMetersToPos x = _
        unfold Curve.FromAbsMetersToPos
        rw [Curve.meterAbsToSislAbs_ok h1x h2x]
        rfl
      rw [hlhs2, hrhs2]
      show Except.ok (c.curve_.pos (c.curve_.startParam + c.curve_.endParam -
        (c.curve_.startParam + c.curve_.endParam - (c.curve_.startParam +
          c.curve_.endParam - (c.curve_.startParam + c.curve_.endParam -
            c.curve_.invArcLen (c.curve_.len - (c.curve_.len -
              (x - c.startParameter_m_)))))))) = _
      simp only [show ∀ z : ℚ, c.curve_.startParam + c.curve_.endParam -
        (c.curve_.startParam + c.curve_.endParam - z) = z from fun z => by ring]
      rw [show c.curve_.len - (c.curve_.len - (x - c.startParameter_m_)) =
        x - c.startParameter_m_ from by ring]

/-- Claim C8, witness: checked on the unit-speed segment at meters
abscissa 1, and the double reversal at meters abscissa 0. -/
theorem reverse_mirrors_at_witness :
    lineCurve.Reverse.At 1 =
      lineCurve.At (lineCurve.StartParameter_m + lineCurve.EndParameter_m - 1) ∧
    lineCurve.Reverse.Reverse.At 0 = lineCurve.At 0 :=
  ⟨(reverse_mirrors_at lineCurve lineCurve_consistent lineSISL_wellFormed 1
      (by decide) (by decide)).1,
   (reverse_mirrors_at lineCurve lineCurve_consistent lineSISL_wellFormed 1
      (by decide) (by decide)).2 0⟩


/-- Claim C9: for a positive samples count `n`, `Sampling` returns exactly
`n` points, each of them a position of the curve at a native parameter
inside the native interval, and, being a `const` method, it leaves the
receiver (hence every getter) unchanged. -/
theorem sampling_count_and_on_curve (c : Curve) (hc : c.Consistent)
    (hw : c.CurvePtr.WellFormed) (n : ℕ) (hn : 0 < n) :
    (c.Sampling n).1 = c ∧
    (c.Sampling n).2.length = n ∧
    ∀ p ∈ (c.Sampling n).2, ∃ s, c.StartParameter_s ≤ s ∧
      s ≤ c.EndParameter_s ∧ p = c.FromAbsSislToPos s := by
  have hse : c.startParameter_s_ ≤ c.endParameter_s_ := by
    rw [hc.start_s, hc.end_s]
    exact hw.param_le
  refine ⟨rfl, ?_, ?_⟩
  · show (List.map (fun i : ℕ => c.FromAbsSislToPos (c.startParameter_s_ +
      (c.endParameter_s_ - c.startParameter_s_) * (i : ℚ) / ((n : ℚ) - 1)))
      (List.range n)).length = n
    rw [List.length_map, List.length_range]
  · intro p hp
    replace hp : p ∈ List.map (fun i : ℕ =>
      c.FromAbsSislToPos (c.startParameter_s_ +
        (c.endParameter_s_ - c.startParameter_s_) * (i : ℚ) / ((n : ℚ) - 1)))
      (List.range n) := hp
    rw [List.mem_map] at hp
    obtain ⟨i, hi, hpi⟩ := hp
    rw [List.mem_range] at hi
    refine ⟨c.startParameter_s_ +
      (c.endParameter_s_ - c.startParameter_s_) * (i : ℚ) / ((n : ℚ) - 1),
      ?_, ?_, hpi.symm⟩
    · show c.startParameter_s_ ≤ c.startParameter_s_ +
        (c.endParameter_s_ - c.startParameter_s_) * (i : ℚ) / ((n : ℚ) - 1)
      rcases Nat.lt_or_ge n 2 with hn2 | hn2
      · have hn1 : n = 1 := by omega
        have hi0 : i = 0 := by omega
        subst hn1
        subst hi0
        norm_num
      · have hd : (0 : ℚ) < (n : ℚ) - 1 := by
          have h2n : (2 : ℚ) ≤ (n : ℚ) := by exact_mod_cast hn2
          linarith
        have hnum : 0 ≤ (c.endParameter_s_ - c.startParameter_s_) * (i : ℚ) :=
          mul_nonneg (by linarith) (Nat.cast_nonneg i)
        have := div_nonneg hnum (le_of_lt hd)
        linarith
    · show c.startParameter_s_ +
        (c.endParameter_s_ - c.startParameter_s_) * (i : ℚ) / ((n : ℚ) - 1) ≤
        c.endParameter_s_
      rcases Nat.lt_or_ge n 2 with hn2 | hn2
      · have hn1 : n = 1 := by omega
        have hi0 : i = 0 := by omega
        subst hn1
        subst hi0
        norm_num
        exact hse
      · have hd : (0 : ℚ) < (n : ℚ) - 1 := by
          have h2n : (2 : ℚ) ≤ (n : ℚ) := by exact_mod_cast hn2
          linarith
        have hle : (i : ℚ) ≤ (n : ℚ) - 1 := by
          have hcast : (i : ℚ) + 1 ≤ (n : ℚ) := by exact_mod_cast hi
          linarith
        have hmul : (c.endParameter_s_ - c.startParameter_s_) * (i : ℚ) ≤
            (c.endParameter_s_ - c.startParameter_s_) * ((n : ℚ) - 1) :=
          mul_le_mul_of_nonneg_left hle (by linarith)
        have hdiv : (c.endParameter_s_ - c.startParameter_s_) * (i : ℚ) /
            ((n : ℚ) - 1) ≤ c.endParameter_s_ - c.startParameter_s_ := by
          rw [div_le_iff₀ hd]
          exact hmul
        linarith

/-- Claim C9, witness: three samples of the unit-speed segment. -/
theorem sampling_count_and_on_curve_witness :
    (lineCurve.Sampling 3).1 = lineCurve ∧
    (lineCurve.Sampling 3).2.length = 3 ∧
    ∀ p ∈ (lineCurve.Sampling 3).2, ∃ s, lineCurve.StartParameter_s ≤ s ∧
      s ≤ lineCurve.EndParameter_s ∧ p = lineCurve.FromAbsSislToPos s :=
  sampling_count_and_on_curve lineCurve lineCurve_consistent lineSISL_wellFormed
    3 (by decide)

/-- Claim C10: `EvalTangentFrame` returns the curve's tangent direction at
the converted abscissa, the cross product of the tangent with the z versor
of the world frame, and the cross product of tangent and normal; the
tangent's sign depends on the direction of the curve (on the reversed
curve, the tangent at the mirrored abscissa is the negation). -/
theorem evalTangentFrame_components (c : Curve) (hc : c.Consistent)
    (hw : c.CurvePtr.WellFormed) (m : ℚ)
    (h1 : c.StartParameter_m ≤ m) (h2 : m ≤ c.EndParameter_m) :
    (∃ s, c.MeterAbsToSislAbs m = Except.ok s ∧
      c.EvalTangentFrame m = Except.ok (c.CurvePtr.der s,
        (c.CurvePtr.der s).cross zVersor,
        (c.CurvePtr.der s).cross ((c.CurvePtr.der s).cross zVersor))) ∧
    (∃ s t, c.MeterAbsToSislAbs m = Except.ok s ∧
      c.Reverse.EvalTangentFrame (c.StartParameter_m + c.EndParameter_m - m) =
        Except.ok t ∧
      t.1 = (c.CurvePtr.der s).neg) := by
  have hspan := hc.span_m
  have hlen := hc.length_eq
  replace h1 : c.startParameter_m_ ≤ m := h1
  replace h2 : m ≤ c.endParameter_m_ := h2
  constructor
  · refine ⟨c.curve_.invArcLen (m - c.startParameter_m_),
      Curve.meterAbsToSislAbs_ok h1 h2, ?_⟩
    unfold Curve.EvalTangentFrame
    rw [Curve.meterAbsToSislAbs_ok h1 h2]
    rfl
  · refine ⟨c.curve_.invArcLen (m - c.startParameter_m_),
      (c.curve_.reverse.der (c.curve_.reverse.invArcLen
          (c.startParameter_m_ + c.endParameter_m_ - m - c.startParameter_m_)),
        (c.curve_.reverse.der (c.curve_.reverse.invArcLen
          (c.startParameter_m_ + c.endParameter_m_ - m -
            c.startParameter_m_))).cross zVersor,
        (c.curve_.reverse.der (c.curve_.reverse.invArcLen
          (c.startParameter_m_ + c.endParameter_m_ - m -
            c.startParameter_m_))).cross
          ((c.curve_.reverse.der (c.curve_.reverse.invArcLen
            (c.startParameter_m_ + c.endParameter_m_ - m -
              c.startParameter_m_))).cross zVersor)),
      Curve.meterAbsToSislAbs_ok h1 h2, ?_, ?_⟩
    · unfold Curve.EvalTangentFrame
      rw [Curve.meterAbsToSislAbs_ok
        (show c.Reverse.startParameter_m_ ≤
            c.StartParameter_m + c.EndParameter_m - m from by
          show c.startParameter_m_ ≤ c.startParameter_m_ + c.endParameter_m_ - m
          linarith)
        (show c.StartParameter_m + c.EndParameter_m - m ≤
            c.Reverse.endParameter_m_ from by
          show c.startParameter_m_ + c.endParameter_m_ - m ≤ c.endParameter_m_
          linarith)]
      rfl
    · show (c.curve_.der (c.curve_.startParam + c.curve_.endParam -
        (c.curve_.startParam + c.curve_.endParam - c.curve_.invArcLen
          (c.curve_.len - (c.startParameter_m_ + c.endParameter_m_ - m -
            c.startParameter_m_))))).neg =
        (c.curve_.der (c.curve_.invArcLen (m - c.startParameter_m_))).neg
      rw [show ∀ z : ℚ, c.curve_.startParam + c.curve_.endParam -
        (c.curve_.startParam + c.curve_.endParam - z) = z from fun z => by ring]
      rw [show c.curve_.len - (c.startParameter_m_ + c.endParameter_m_ - m -
        c.startParameter_m_) = m - c.startParameter_m_ from by linarith]

/-- Claim C10, witness: checked on the unit-speed segment at meters
abscissa 1. -/
theorem evalTangentFrame_components_witness :
    (∃ s, lineCurve.MeterAbsToSislAbs 1 = Except.ok s ∧
      lineCurve.EvalTangentFrame 1 = Except.ok (lineCurve.CurvePtr.der s,
        (lineCurve.CurvePtr.der s).cross zVersor,
        (lineCurve.CurvePtr.der s).cross
          ((lineCurve.CurvePtr.der s).cross zVersor))) ∧
    (∃ s t, lineCurve.MeterAbsToSislAbs 1 = Except.ok s ∧
      lineCurve.Reverse.EvalTangentFrame
          (lineCurve.StartParameter_m + lineCurve.EndParameter_m - 1) =
        Except.ok t ∧
      t.1 = (lineCurve.CurvePtr.der s).neg) :=
  evalTangentFrame_components lineCurve lineCurve_consistent lineSISL_wellFormed
    1 (by decide) (by decide)


end SislToolbox
